import Mathlib

/-!
Verification development for the toil-scripts pipeline core.

Shallow embedding of the two source modules
`src/toil_scripts/defuse_pipeline/defuse_lib.py` and
`src/toil_scripts/adam_gatk_pipeline/align_and_call.py`.

File paths, file names and command-line fragments are modelled as `List Char`.
The helpers `rfind`, `splitext`, `basename`, `splitPath` and `joinPath` embed
the exact CPython `posixpath` algorithms that the source relies on.
-/

/-- Python `str.rfind c`: index of the last occurrence of `c`, `-1` when absent. -/
def rfindAux (c : Char) : List Char → Nat → Int → Int
  | [], _, best => best
  | x :: rest, i, best => rfindAux c rest (i + 1) (if x = c then Int.ofNat i else best)

/-- Python `p.rfind(c)`. -/
def rfind (c : Char) (p : List Char) : Int :=
  rfindAux c p 0 (-1)

/-- The while-loop of CPython `posixpath.splitext`: true when every character of
`p` with index in `[lo, hi)` is a dot (then no extension split happens). -/
def allDots (p : List Char) (lo hi : Nat) : Bool :=
  ((p.drop lo).take (hi - lo)).all (fun c => c == '.')

/-- CPython `posixpath.splitext`: split off the extension at the last dot of the
basename, unless the basename up to that dot consists solely of dots. -/
def splitext (p : List Char) : List Char × List Char :=
  let sepIndex := rfind '/' p
  let dotIndex := rfind '.' p
  if sepIndex < dotIndex then
    if allDots p (sepIndex + 1).toNat dotIndex.toNat then (p, [])
    else (p.take dotIndex.toNat, p.drop dotIndex.toNat)
  else (p, [])

/-- CPython `posixpath.basename`. -/
def basename (p : List Char) : List Char :=
  p.drop (rfind '/' p + 1).toNat

/-- Strip trailing slashes (used by `posixpath.split`). -/
def rstripSlash (l : List Char) : List Char :=
  (l.reverse.dropWhile (fun c => c == '/')).reverse

/-- CPython `posixpath.split`: `(head, tail)` around the last slash, trailing
slashes removed from a non-root head. -/
def splitPath (p : List Char) : List Char × List Char :=
  let i := (rfind '/' p + 1).toNat
  let head := p.take i
  let tail := p.drop i
  if head ≠ [] ∧ ¬ (head.all (fun c => c == '/')) then (rstripSlash head, tail)
  else (head, tail)

/-- CPython `posixpath.join` for two components. -/
def joinPath (a b : List Char) : List Char :=
  if ['/'].isPrefixOf b then b
  else if a.isEmpty || ['/'].isSuffixOf a then a ++ b
  else a ++ '/' :: b

/-- Python `str.split('.')` (single-character separator, keeps empty fields). -/
def splitDotGo : List Char → List Char → List (List Char)
  | acc, [] => [acc.reverse]
  | acc, '.' :: rest => acc.reverse :: splitDotGo [] rest
  | acc, c :: rest => splitDotGo (c :: acc) rest

/-- Python `s.split('.')`. -/
def splitDot (l : List Char) : List (List Char) :=
  splitDotGo [] l

/-- The `for i in xrange(0, n): filepath = os.path.splitext(filepath)[0]` loop
of `strip_xext`. -/
def iterSplitextFst : Nat → List Char → List Char
  | 0, p => p
  | n + 1, p => iterSplitextFst n (splitext p).1

/-- `defuse_lib.file_xext` (lines 254-269): the compression extension of a
path, one of `''`, `'.gz'`, `'.tar'`, `'.tar.gz'`. -/
def file_xext (filepath : List Char) : List Char :=
  let ext := (splitext filepath).2
  if ext = ".gz".toList then
    let xext := (splitext (splitext filepath).1).2
    if xext = ".tar".toList then xext ++ ext else ext
  else if ext = ".tar".toList then ext
  else []

/-- `defuse_lib.strip_xext` (lines 272-281): strip the compression extension
by applying `splitext` once per dot-separated component of `file_xext`. -/
def strip_xext (filepath : List Char) : List Char :=
  iterSplitextFst ((splitDot (file_xext filepath)).length - 1) filepath

/-!
File contents for the staging subsystem (`defuse_lib.py` lines 14-92).

A file's bytes are abstracted to their format structure: `plain` data, a
generic gzip stream `gz` wrapping inner content, a `bam` container (which is
bgzipped, hence shares the gzip magic signature, but which pysam opens
successfully), and a single-member `tar` archive (the source documents
archives as holding exactly one logical payload).
-/

inductive Content
  | plain (data : List Char)
  | gz (inner : Content)
  | bam (data : List Char)
  | tar (memberName : List Char) (memberContent : Content)
deriving DecidableEq

/-- The first three bytes equal the gzip magic sequence. BAM files are bgzipped
and share it (comment at `defuse_lib.py` lines 43-44). -/
def hasGzipMagic : Content → Bool
  | .gz _ => true
  | .bam _ => true
  | _ => false

/-- Whether `pysam.Samfile(filename)` succeeds; it raises `ValueError` on a
gzip stream that is not a BAM. -/
def samfileOk : Content → Bool
  | .bam _ => true
  | _ => false

/-- `defuse_lib.is_gzipfile` (lines 31-52): gzip magic signature, then the
secondary `Samfile` parse; the file counts as gzip exactly when that parse
fails. -/
def is_gzipfile (c : Content) : Bool :=
  if hasGzipMagic c then
    if samfileOk c then false else true
  else false

/-- `tarfile.is_tarfile`: also true for a gzip-compressed tar, since
`tarfile.open` decompresses transparently. -/
def is_tarfile : Content → Bool
  | .tar _ _ => true
  | .gz inner => is_tarfile inner
  | _ => false

/-- `tarball.getmembers()[0]` after `tarfile.open` (transparent gzip). -/
def tarFirstMember : Content → Option (List Char × Content)
  | .tar n c => some (n, c)
  | .gz inner => tarFirstMember inner
  | _ => none

/-- One layer of `gzip.open` decompression. -/
def gunzip1 : Content → Option Content
  | .gz inner => some inner
  | _ => none

/-- `defuse_lib.docker_path` (lines 284-285). -/
def docker_path (filepath : List Char) : List Char :=
  joinPath "/data".toList (basename filepath)

/-- Outcome of staging one file: the resulting logical name (dict key), the
path stored under it (dict value), and the files materialized on disk. -/
structure Staged where
  name : List Char
  path : List Char
  fs : List (List Char × Content)
deriving DecidableEq

/-- First-match filesystem lookup. -/
def fsGet (fs : List (List Char × Content)) (p : List Char) : Option Content :=
  match fs with
  | [] => none
  | (q, c) :: rest => if q = p then some c else fsGet rest p

/-- `defuse_lib.get_files_from_filestore` (lines 54-92), specialised to a
single `name -> fileStoreID` entry whose materialized content is `content`.
`readGlobalFile` writes the content to `work_dir/name`; a tarball (by content
and by `.tar`-prefixed extension) is extracted, a gzip file (by content and by
`.gz` extension) is decompressed to the extension-stripped path while the dict
value is set to `outfile` itself, and anything else is returned unchanged.
`none` models an assertion failure inside `untargz`/`gzip.open`
(unreachable under the guards). -/
def get_files_from_filestore_one (work_dir nm : List Char) (content : Content)
    (docker : Bool) : Option Staged :=
  let outfile := work_dir ++ '/' :: nm
  if is_tarfile content && ".tar".toList.isPrefixOf (file_xext outfile) then
    match tarFirstMember content with
    | none => none
    | some (m, mc) =>
      let untar_name := basename (strip_xext outfile)
      let ret := joinPath work_dir m
      some { name := basename untar_name,
             path := if docker then docker_path ret else ret,
             fs := [(outfile, content), (ret, mc)] }
  else if is_gzipfile content && (file_xext outfile == ".gz".toList) then
    match gunzip1 content with
    | none => none
    | some inner =>
      let ungz_name := strip_xext outfile
      some { name := basename ungz_name,
             path := if docker then docker_path outfile else outfile,
             fs := [(outfile, content), (ungz_name, inner)] }
  else
    some { name := nm,
           path := if docker then docker_path outfile else outfile,
           fs := [(outfile, content)] }

/-!
The object-store fetch `defuse_lib.get_file_from_s3` (lines 94-173): the
download loop with stderr-based failure classification. Each attempt is one
external tool invocation; its outcome is either success, a process error
carrying the captured stderr lines, or a missing-binary error. The loop body
opens a stderr log per attempt and removes it on every exit path.
-/

inductive AttemptOutcome
  | success
  | fails (stderrLines : List (List Char))
  | osError
deriving DecidableEq

inductive ErrClass
  | err403
  | err400
  | botoOther
  | missingOnS3
  | attrOther
  | unclassified
deriving DecidableEq

inductive FetchOutcome
  | ok
  | raise403
  | raise400
  | raiseBotoOther
  | raiseMissing
  | raiseAttrOther
  | raiseUndiagnosed
  | raiseNoS3am
deriving DecidableEq

inductive FileEvent
  | openLog
  | removeLog
deriving DecidableEq

/-- Python `str.strip()`. -/
def pstrip (l : List Char) : List Char :=
  ((l.dropWhile Char.isWhitespace).reverse.dropWhile Char.isWhitespace).reverse

/-- Python `str.split(': ')` on the two-character separator. -/
def splitColonSpaceGo : List Char → List Char → List (List Char)
  | acc, ':' :: ' ' :: rest => acc.reverse :: splitColonSpaceGo [] rest
  | acc, c :: rest => splitColonSpaceGo (c :: acc) rest
  | acc, [] => [acc.reverse]

/-- Python `line.split(': ')`. -/
def splitColonSpace (l : List Char) : List (List Char) :=
  splitColonSpaceGo [] l

/-- The literal `'NoneType'` (with its surrounding quote characters, written
via their code point). -/
def noneTypePat : List Char :=
  Char.ofNat 39 :: ("NoneType".toList ++ [Char.ofNat 39])

/-- Lines 133-137: iterate the stderr lines, keeping the stripped text of the
last non-empty one (the model returns `[]` where the source would leave
`exception` unbound). -/
def lastNonEmptyLine (ls : List (List Char)) : List Char :=
  ls.foldl (fun acc l => let s := pstrip l; if s.isEmpty then acc else s) []

/-- Lines 138-157: classification of the final stderr line of a failed `s3am`
invocation. -/
def classifyLine (line : List Char) : ErrClass :=
  if "boto".toList.isPrefixOf line then
    let last := (splitColonSpace line).getLastD []
    if "403".toList.isPrefixOf last then ErrClass.err403
    else if "400".toList.isPrefixOf last then ErrClass.err400
    else ErrClass.botoOther
  else if "AttributeError".toList.isPrefixOf line then
    let last := (splitColonSpace line).getLastD []
    if noneTypePat.isPrefixOf last then ErrClass.missingOnS3
    else ErrClass.attrOther
  else ErrClass.unclassified

/-- The download loop of `get_file_from_s3` (lines 126-169), starting with the
given value of `attempt`. `outcomes` is the stream of per-invocation results
of the external tool. Returns the loop result (`none` when the stream is
exhausted before the loop exits), the number of attempts (subprocess
invocations) performed, and the trace of diagnostic-log file events: the
per-attempt `open(work_dir/stderr)` and the `finally: os.remove` executed on
every exit path (success `break`, each classified `raise`, the `OSError`
`raise`, and the retry `continue`). -/
def s3_run : List AttemptOutcome → Nat → Option FetchOutcome × Nat × List FileEvent
  | [], _ => (none, 0, [])
  | o :: rest, attempt =>
    match o with
    | .success => (some FetchOutcome.ok, 1, [FileEvent.openLog, FileEvent.removeLog])
    | .osError => (some FetchOutcome.raiseNoS3am, 1, [FileEvent.openLog, FileEvent.removeLog])
    | .fails lines =>
      match classifyLine (lastNonEmptyLine lines) with
      | .err403 => (some FetchOutcome.raise403, 1, [FileEvent.openLog, FileEvent.removeLog])
      | .err400 => (some FetchOutcome.raise400, 1, [FileEvent.openLog, FileEvent.removeLog])
      | .botoOther => (some FetchOutcome.raiseBotoOther, 1, [FileEvent.openLog, FileEvent.removeLog])
      | .missingOnS3 => (some FetchOutcome.raiseMissing, 1, [FileEvent.openLog, FileEvent.removeLog])
      | .attrOther => (some FetchOutcome.raiseAttrOther, 1, [FileEvent.openLog, FileEvent.removeLog])
      | .unclassified =>
        if attempt < 3 then
          let r := s3_run rest (attempt + 1)
          (r.1, r.2.1 + 1, [FileEvent.openLog, FileEvent.removeLog] ++ r.2.2)
        else (some FetchOutcome.raiseUndiagnosed, 1, [FileEvent.openLog, FileEvent.removeLog])

/-- Loop result of a full fetch (loop entered with `attempt = 0`). -/
def get_file_from_s3_result (outs : List AttemptOutcome) : Option FetchOutcome :=
  (s3_run outs 0).1

/-- Number of `s3am` invocations a full fetch performs. -/
def get_file_from_s3_attempts (outs : List AttemptOutcome) : Nat :=
  (s3_run outs 0).2.1

/-!
The archive-service fetch `defuse_lib.get_file_from_cghub` (lines 176-251).

The download loop (lines 206-222) invokes the retrieval tool with a `-k`
timeout parameter of `(attemptNumber + 1) * 10` minutes; on an error it
sleeps 600 seconds, logs, increments `attemptNumber`, and re-raises once
`attemptNumber == 3`. The stream `outcomes` gives each invocation's success
flag.
-/

inductive CgEvent
  | toolCall (timeoutParam : Nat) (ok : Bool)
  | sleep (seconds : Nat)
  | logErr
  | raiseToolError
deriving DecidableEq

/-- The retry loop of `get_file_from_cghub`, from a given `attemptNumber`.
Returns `none` when the outcome stream is exhausted, otherwise the success
flag (`false` means the tool error was re-raised) and the event trace. -/
def cghub_run : List Bool → Nat → Option (Bool × List CgEvent)
  | [], _ => none
  | ok :: rest, attemptNumber =>
    let k := (attemptNumber + 1) * 10
    if ok then some (true, [CgEvent.toolCall k true])
    else if attemptNumber + 1 = 3 then
      some (false, [CgEvent.toolCall k false, CgEvent.sleep 600, CgEvent.logErr,
                    CgEvent.raiseToolError])
    else
      match cghub_run rest (attemptNumber + 1) with
      | none => none
      | some (r, evs) =>
        some (r, CgEvent.toolCall k false :: CgEvent.sleep 600 :: CgEvent.logErr :: evs)

/-- The `-k` timeout parameters of the tool invocations in a trace, in order. -/
def cgCalls (evs : List CgEvent) : List Nat :=
  evs.filterMap (fun e => match e with
    | CgEvent.toolCall k _ => some k
    | _ => none)

/-!
Bundle-shape validation of `get_file_from_cghub` (lines 223-251) and the
`bam2fastq` conversion (lines 288-310). `files` is the non-hidden listing of
the analysis directory; `content1` is the content of the single file in the
one-file case.
-/

/-- Python `re.sub` with the fixed pattern `_2.fastq` and replacement
`_1.fastq`: replace every non-overlapping occurrence, left to right. -/
def sub_2to1 : List Char → List Char
  | '_' :: '2' :: '.' :: 'f' :: 'a' :: 's' :: 't' :: 'q' :: rest =>
      '_' :: '1' :: '.' :: 'f' :: 'a' :: 's' :: 't' :: 'q' :: sub_2to1 rest
  | c :: rest => c :: sub_2to1 rest
  | [] => []

inductive ShapeResult
  | fastqPath (p : List Char)
  | unexpectedArchiveShape
  | assertionFailed
deriving DecidableEq

/-- `defuse_lib.bam2fastq` (lines 288-310): the returned path of the first
paired fastq, `work_dir + '/' + base_name + '_1.fastq'` (the Picard
invocation itself is the opaque external tool that produces the file). -/
def bam2fastq_path (bamfile : List Char) : List Char :=
  let work_dir := (splitPath bamfile).1
  let base_name := (splitPath (splitext bamfile).1).2
  work_dir ++ '/' :: (base_name ++ "_1.fastq".toList)

/-- Lines 223-251 of `get_file_from_cghub`: validation of the retrieved
bundle shape after a successful download. `unexpectedArchiveShape` stands for
the identical `RuntimeError('This is probably not a TCGA archive ...')`
raises; `assertionFailed` covers the `IndexError`/`untargz` assertion paths
that the guards make unreachable. -/
def cghub_shape (work_dir temp_fastqdir analysis_id : List Char)
    (files : List (List Char)) (content1 : Content) : ShapeResult :=
  if files.length = 2 then
    let prefixes := files.map (fun x => (splitext x).2)
    if !(prefixes.contains ".bam".toList && prefixes.contains ".bai".toList) then
      ShapeResult.unexpectedArchiveShape
    else
      match files.filter (fun x => ".bam".toList.isSuffixOf x) with
      | [] => ShapeResult.assertionFailed
      | b :: _ =>
        ShapeResult.fastqPath (bam2fastq_path (joinPath (joinPath temp_fastqdir analysis_id) b))
  else if files.length = 1 then
    match files with
    | f :: _ =>
      if !(".tar.gz".toList.isSuffixOf f) then ShapeResult.unexpectedArchiveShape
      else
        let outFastqDir := joinPath work_dir "fastqs".toList
        match tarFirstMember content1 with
        | none => ShapeResult.assertionFailed
        | some (m, _) =>
          let fastq_file := joinPath outFastqDir m
          if ".fastq".toList.isSuffixOf fastq_file || ".fastq.gz".toList.isSuffixOf fastq_file then
            ShapeResult.fastqPath (sub_2to1 fastq_file)
          else ShapeResult.unexpectedArchiveShape
    | [] => ShapeResult.assertionFailed
  else ShapeResult.unexpectedArchiveShape

inductive CghubResult
  | downloadFailed
  | shaped (s : ShapeResult)
deriving DecidableEq

/-- `get_file_from_cghub` end to end: run the download loop from
`attemptNumber = 0`; only when it succeeds is the bundle shape inspected
(shape errors are raised after the loop and are never retried). -/
def get_file_from_cghub_model (outs : List Bool)
    (work_dir temp_fastqdir analysis_id : List Char)
    (files : List (List Char)) (content1 : Content) :
    Option (CghubResult × List CgEvent) :=
  match cghub_run outs 0 with
  | none => none
  | some (false, evs) => some (CghubResult.downloadFailed, evs)
  | some (true, evs) =>
    some (CghubResult.shaped (cghub_shape work_dir temp_fastqdir analysis_id files content1),
          evs)

/-!
`adam_gatk_pipeline/align_and_call.py`: the per-sample graph builder
`static_dag` (lines 218-308) and the manifest loop `sample_loop`
(lines 198-215).
-/

inductive JobId
  | sampleLoopRoot
  | bwa
  | adam_preprocess
  | gatk_preprocess
  | gatk_adam_call
  | gatk_gatk_call
deriving DecidableEq

/-- Lines 234-237: region suffix used in the `https://s3%s.amazonaws.com`
URLs; empty for `us-east-1`, `-<region>` otherwise. -/
def region_adjust (bucket_region : List Char) : List Char :=
  if bucket_region = "us-east-1".toList then [] else '-' :: bucket_region

/-- Line 246: the single line of the BWA config csv. -/
def bwa_config_line (region s3_bucket uuid : List Char) : List Char :=
  uuid ++ ",https://s3".toList ++ region_adjust region ++ ".amazonaws.com/".toList
    ++ s3_bucket ++ "/sequence/".toList ++ uuid ++ "_1.fastq.gz,https://s3".toList
    ++ region_adjust region ++ ".amazonaws.com/".toList ++ s3_bucket
    ++ "/sequence/".toList ++ uuid ++ "_2.fastq.gz".toList

/-- Line 254: the single line of the GATK-preprocessing config csv. -/
def gatk_preprocess_config_line (region s3_bucket uuid : List Char) : List Char :=
  uuid ++ ",https://s3".toList ++ region_adjust region ++ ".amazonaws.com/".toList
    ++ s3_bucket ++ "/alignment/".toList ++ uuid ++ ".bam".toList

/-- The part of the ADAM-branch haplotype-caller config line before the
branch-specific `.adam.bam` / `.gatk.bam` tail (lines 262 and 270 share this
shape). -/
def gatk_call_config_stem (region s3_bucket uuid : List Char) : List Char :=
  uuid ++ ",https://s3".toList ++ region_adjust region ++ ".amazonaws.com/".toList
    ++ s3_bucket ++ "/analysis/".toList ++ uuid ++ "/".toList ++ uuid

/-- Line 262: config line for the haplotype caller on the ADAM branch. -/
def gatk_adam_call_config_line (region s3_bucket uuid : List Char) : List Char :=
  gatk_call_config_stem region s3_bucket uuid ++ ".adam.bam".toList

/-- Line 270: config line for the haplotype caller on the GATK branch. -/
def gatk_gatk_call_config_line (region s3_bucket uuid : List Char) : List Char :=
  gatk_call_config_stem region s3_bucket uuid ++ ".gatk.bam".toList

/-- The `suffix` entry of `adam_inputs` (line 348). -/
def adam_inputs_suffix : List Char := ".adam".toList

/-- The `suffix` entry of `gatk_preprocess_inputs` (line 358). -/
def gatk_preprocess_inputs_suffix : List Char := ".gatk".toList

/-- The `suffix` entry of `gatk_adam_call_inputs` (line 371). -/
def gatk_adam_call_inputs_suffix : List Char := ".adam".toList

/-- The `suffix` entry of `gatk_gatk_call_inputs` (line 385). -/
def gatk_gatk_call_inputs_suffix : List Char := ".gatk".toList

structure StaticDagResult where
  edges : List (JobId × JobId)
  bwa_config : List Char
  gatk_preprocess_config : List Char
  gatk_adam_call_config : List Char
  gatk_gatk_call_config : List Char

/-- `static_dag` (lines 218-308): writes the four per-sample config files and
wires the encapsulated jobs: `job.addChild(bwa)` unconditionally; the
ADAM-preprocess chain under `bwa` when `pipeline_to_run` is `adam` or
`both`; the GATK-preprocess chain under `bwa` when it is `gatk` or `both`.
All five encapsulated jobs are created by `wrapJobFn`, but only the wired
ones become part of the submitted graph. -/
def static_dag (bucket_region s3_bucket uuid pipeline_to_run : List Char) : StaticDagResult :=
  { edges :=
      [(JobId.sampleLoopRoot, JobId.bwa)]
      ++ (if pipeline_to_run = "adam".toList ∨ pipeline_to_run = "both".toList then
            [(JobId.bwa, JobId.adam_preprocess),
             (JobId.adam_preprocess, JobId.gatk_adam_call)]
          else [])
      ++ (if pipeline_to_run = "gatk".toList ∨ pipeline_to_run = "both".toList then
            [(JobId.bwa, JobId.gatk_preprocess),
             (JobId.gatk_preprocess, JobId.gatk_gatk_call)]
          else []),
    bwa_config := bwa_config_line bucket_region s3_bucket uuid,
    gatk_preprocess_config := gatk_preprocess_config_line bucket_region s3_bucket uuid,
    gatk_adam_call_config := gatk_adam_call_config_line bucket_region s3_bucket uuid,
    gatk_gatk_call_config := gatk_gatk_call_config_line bucket_region s3_bucket uuid }

/-!
`sample_loop` (lines 198-215): the manifest loop mutates five configuration
dicts in place and passes the same dict objects by reference into
`addChildJobFn` for every sample; the bundles are serialized only when the
children are committed, after the loop completes. The heap models Python
object identity: an address per dict object.
-/

abbrev Addr := Nat

abbrev Dict := List (List Char × List Char)

/-- Python in-place `d[k] = v` (observed through `dictGet`). -/
def dictSet (d : Dict) (k v : List Char) : Dict :=
  (k, v) :: d

/-- Python `d[k]` lookup. -/
def dictGet : Dict → List Char → Option (List Char)
  | [], _ => none
  | (k2, v) :: rest, k => if k2 = k then some v else dictGet rest k

structure Heap where
  f : Addr → Dict

def Heap.set (h : Heap) (a : Addr) (d : Dict) : Heap :=
  ⟨fun x => if x = a then d else h.f x⟩

/-- The addresses of the five shared configuration dict objects. -/
structure Addrs where
  bwa : Addr
  adam : Addr
  gatkPre : Addr
  gatkAdamCall : Addr
  gatkGatkCall : Addr
deriving DecidableEq

/-- A child graph created by `addChildJobFn`: it captures the sample uuid and
references (not copies) to the five dict objects. -/
structure ChildJob where
  uuid : List Char
  refs : Addrs
deriving DecidableEq

/-- One iteration of the `for uuid in uuid_list` body (lines 203-212): the
seven in-place dict updates. -/
def sample_loop_body (s3_bucket uuid : List Char) (a : Addrs) (h : Heap) : Heap :=
  let h := h.set a.bwa
    (dictSet (dictSet (h.f a.bwa) "lb".toList uuid) "uuid".toList uuid)
  let h := h.set a.adam
    (dictSet (dictSet (h.f a.adam)
        "outDir".toList ("s3://".toList ++ s3_bucket ++ "/analysis/".toList ++ uuid))
      "bamName".toList
      ("s3://".toList ++ s3_bucket ++ "/alignment/".toList ++ uuid ++ ".bam".toList))
  let h := h.set a.gatkPre
    (dictSet (h.f a.gatkPre) "s3_dir".toList (s3_bucket ++ "/analysis/".toList ++ uuid))
  let h := h.set a.gatkAdamCall
    (dictSet (h.f a.gatkAdamCall) "s3_dir".toList (s3_bucket ++ "/analysis/".toList ++ uuid))
  let h := h.set a.gatkGatkCall
    (dictSet (h.f a.gatkGatkCall) "s3_dir".toList (s3_bucket ++ "/analysis/".toList ++ uuid))
  h

/-- `sample_loop` (lines 198-215): per uuid, mutate the shared dicts and
create a child holding references to them; returns the heap after the loop
and the created children. -/
def sample_loop (s3_bucket : List Char) (a : Addrs) :
    List (List Char) → Heap → Heap × List ChildJob
  | [], h => (h, [])
  | uuid :: rest, h =>
    let h2 := sample_loop_body s3_bucket uuid a h
    let r := sample_loop s3_bucket a rest h2
    (r.1, { uuid := uuid, refs := a } :: r.2)

/-- The configuration bundle one of a child's references resolves to once the
children are serialized, i.e. in the heap as left by the completed loop. -/
def childSees (finalHeap : Heap) (c : ChildJob) (pick : Addrs → Addr) : Dict :=
  finalHeap.f (pick c.refs)

theorem splitext_concat (p : List Char) : (splitext p).1 ++ (splitext p).2 = p := by
  unfold splitext
  dsimp only
  split
  · split
    · simp
    · simp [List.take_append_drop]
  · simp

/-- C10: `file_xext` always returns one of the four compression extensions, and
`strip_xext` followed by re-appending `file_xext` reconstructs the original
path exactly. -/
theorem c10_xext_round_trip (p : List Char) :
    (file_xext p = [] ∨ file_xext p = ".gz".toList ∨ file_xext p = ".tar".toList ∨
      file_xext p = ".tar.gz".toList) ∧
    strip_xext p ++ file_xext p = p := by
  by_cases h1 : (splitext p).2 = ['.', 'g', 'z']
  · by_cases h2 : (splitext (splitext p).1).2 = ['.', 't', 'a', 'r']
    · have hx : file_xext p = ['.', 't', 'a', 'r', '.', 'g', 'z'] := by
        unfold file_xext
        simp [h1, h2]
      refine ⟨Or.inr (Or.inr (Or.inr hx)), ?_⟩
      unfold strip_xext
      rw [hx]
      have hn : ((splitDot ['.', 't', 'a', 'r', '.', 'g', 'z']).length - 1) = 2 := by decide
      rw [hn]
      show (splitext (splitext p).1).1 ++ ['.', 't', 'a', 'r', '.', 'g', 'z'] = p
      have hcat : (['.', 't', 'a', 'r', '.', 'g', 'z'] : List Char)
          = (splitext (splitext p).1).2 ++ (splitext p).2 := by rw [h1, h2]; rfl
      rw [hcat, ← List.append_assoc, splitext_concat, splitext_concat]
    · have hx : file_xext p = ['.', 'g', 'z'] := by
        unfold file_xext
        simp [h1, h2]
      refine ⟨Or.inr (Or.inl hx), ?_⟩
      unfold strip_xext
      rw [hx]
      have hn : ((splitDot ['.', 'g', 'z']).length - 1) = 1 := by decide
      rw [hn]
      show (splitext p).1 ++ ['.', 'g', 'z'] = p
      rw [← h1, splitext_concat]
  · by_cases h3 : (splitext p).2 = ['.', 't', 'a', 'r']
    · have hx : file_xext p = ['.', 't', 'a', 'r'] := by
        unfold file_xext
        simp [h1, h3]
      refine ⟨Or.inr (Or.inr (Or.inl hx)), ?_⟩
      unfold strip_xext
      rw [hx]
      have hn : ((splitDot ['.', 't', 'a', 'r']).length - 1) = 1 := by decide
      rw [hn]
      show (splitext p).1 ++ ['.', 't', 'a', 'r'] = p
      rw [← h3, splitext_concat]
    · have hx : file_xext p = [] := by
        unfold file_xext
        simp [h1, h3]
      refine ⟨Or.inl hx, ?_⟩
      unfold strip_xext
      rw [hx]
      show iterSplitextFst ((splitDot []).length - 1) p ++ [] = p
      have hn : ((splitDot ([] : List Char)).length - 1) = 0 := by decide
      rw [hn]
      show p ++ [] = p
      simp

/-- C8: staging a plain (non-archive, non-compressed) file is a no-op — the
logical name is unchanged and the stored path is the materialized
`work_dir/name` — so re-normalizing the staged result equals normalizing
once. -/
theorem c8_normalize_idempotent (w n d : List Char) :
    (get_files_from_filestore_one w n (Content.plain d) false).map
        (fun s => (s.name, s.path))
      = some (n, w ++ '/' :: n) ∧
    ((get_files_from_filestore_one w n (Content.plain d) false).bind
        (fun s => get_files_from_filestore_one w s.name (Content.plain d) false))
      = get_files_from_filestore_one w n (Content.plain d) false := by
  constructor <;> rfl

/-- C5 evaluation: for a gzip-compressed non-BAM file `reads.fq.gz`, staging
strips the `.gz` from the logical name, but the path recorded under the new
name is the original compressed file, whose content is still the gzip stream;
the decompressed bytes were written to `/work/reads.fq`, which the dict does
not reference. -/
theorem c5_gunzip_keeps_compressed_path :
    (get_files_from_filestore_one "/work".toList "reads.fq.gz".toList
        (Content.gz (Content.plain "ACGT".toList)) false).map
        (fun s => (s.name, s.path, fsGet s.fs s.path))
      = some ("reads.fq".toList, "/work/reads.fq.gz".toList,
              some (Content.gz (Content.plain "ACGT".toList))) ∧
    (get_files_from_filestore_one "/work".toList "reads.fq.gz".toList
        (Content.gz (Content.plain "ACGT".toList)) false).map
        (fun s => fsGet s.fs "/work/reads.fq".toList)
      = some (some (Content.plain "ACGT".toList)) := by
  constructor <;> decide

/-- C6 counterexample: two stagings with byte-identical gzip content, one
named `x.gz` and one named `x.txt`. The first is decompressed (name stripped
to `x`, decompressed bytes written); the second is handed through untouched,
still compressed — so the staging decision is not a function of the content
signature alone, it also requires the filename suffix. -/
theorem c6_counterexample_suffix_dependence :
    is_gzipfile (Content.gz (Content.plain "AB".toList)) = true ∧
    (get_files_from_filestore_one "/w".toList "x.gz".toList
        (Content.gz (Content.plain "AB".toList)) false).map (fun s => (s.name, s.fs))
      = some ("x".toList,
              [("/w/x.gz".toList, Content.gz (Content.plain "AB".toList)),
               ("/w/x".toList, Content.plain "AB".toList)]) ∧
    (get_files_from_filestore_one "/w".toList "x.txt".toList
        (Content.gz (Content.plain "AB".toList)) false).map (fun s => (s.name, s.fs))
      = some ("x.txt".toList,
              [("/w/x.txt".toList, Content.gz (Content.plain "AB".toList))]) := by
  refine ⟨by decide, by decide, by decide⟩

/-- C6 amended: `is_gzipfile` itself decides from content alone — gzip magic
plus the secondary `Samfile` parse, gzip exactly when the parse fails, so a
BAM is never treated as gzip and is staged unchanged under any name — but the
staging function additionally requires the filename compression suffix: a
file whose `file_xext` is empty is staged as plain regardless of its content
signature. -/
theorem c6_amended_detection (w n d : List Char) (c cg : Content)
    (_h5 : is_gzipfile cg = true) (hx : file_xext (w ++ '/' :: n) = []) :
    is_gzipfile (Content.gz c) = true ∧
    samfileOk (Content.bam d) = true ∧
    hasGzipMagic (Content.bam d) = true ∧
    is_gzipfile (Content.bam d) = false ∧
    ((get_files_from_filestore_one w n (Content.bam d) false).map
        (fun s => (s.name, s.path)) = some (n, w ++ '/' :: n)) ∧
    ((get_files_from_filestore_one w n cg false).map
        (fun s => (s.name, s.path)) = some (n, w ++ '/' :: n)) := by
  refine ⟨rfl, rfl, rfl, rfl, rfl, ?_⟩
  have htar : (".tar".toList.isPrefixOf ([] : List Char)) = false := by decide
  have hgz2 : ((([] : List Char)) == ".gz".toList) = false := by decide
  unfold get_files_from_filestore_one
  simp [hx, htar, hgz2]

/-- Witness for `c6_amended_detection` at concrete inputs. -/
theorem c6_amended_detection_witness :
    is_gzipfile (Content.gz (Content.plain "AB".toList)) = true ∧
    file_xext ("/w".toList ++ '/' :: "x.txt".toList) = [] ∧
    ((get_files_from_filestore_one "/w".toList "x.txt".toList
        (Content.gz (Content.plain "AB".toList)) false).map
        (fun s => (s.name, s.path)) = some ("x.txt".toList, "/w/x.txt".toList)) := by
  refine ⟨by decide, by decide, ?_⟩
  exact (c6_amended_detection "/w".toList "x.txt".toList [] (Content.plain [])
    (Content.gz (Content.plain "AB".toList)) (by decide) (by decide)).2.2.2.2.2

theorem s3_attempts_bound (outs : List AttemptOutcome) :
    ∀ a : Nat, a ≤ 3 → (s3_run outs a).2.1 + a ≤ 4 := by
  induction outs with
  | nil => intro a ha; simp [s3_run]; omega
  | cons o rest ih =>
    intro a ha
    cases o with
    | success => simp [s3_run]; omega
    | osError => simp [s3_run]; omega
    | fails lines =>
      cases hcl : classifyLine (lastNonEmptyLine lines) <;> simp [s3_run, hcl] <;> try omega
      by_cases hlt : a < 3
      · simp [hlt]
        have := ih (a + 1) (by omega)
        omega
      · simp [hlt]
        omega

/-- C1 counterexample: a persistently failing fetch whose stderr line is not
classifiable (`boto`/`AttributeError` do not match) is attempted 4 times in
total — one initial attempt plus 3 retries — not the claimed at-most-3,
before the fatal undiagnosed error surfaces. -/
theorem c1_counterexample_four_attempts :
    classifyLine (lastNonEmptyLine ["unexpected network error".toList])
      = ErrClass.unclassified ∧
    get_file_from_s3_result
        (List.replicate 4 (AttemptOutcome.fails ["unexpected network error".toList]))
      = some FetchOutcome.raiseUndiagnosed ∧
    get_file_from_s3_attempts
        (List.replicate 4 (AttemptOutcome.fails ["unexpected network error".toList]))
      = 4 ∧
    ¬ get_file_from_s3_attempts
        (List.replicate 4 (AttemptOutcome.fails ["unexpected network error".toList]))
      ≤ 3 := by
  refine ⟨by decide, by decide, by decide, by decide⟩

/-- C1 amended: failures classified as permanent — 403 forbidden, 400 bad
request / key mismatch, missing resource — are attempted exactly once and
raise immediately; a fetch whose failures cannot be classified is attempted
up to 4 times in total (the initial attempt plus 3 retries) before the fatal
undiagnosed error surfaces, and succeeds with `k + 1` attempts if attempt
`k + 1` succeeds after `k ≤ 3` unclassified failures. -/
theorem c1_amended_retry_schedule (lines : List (List Char))
    (rest outs : List AttemptOutcome) (k : Nat) :
    (classifyLine (lastNonEmptyLine lines) = ErrClass.err403 →
      s3_run (AttemptOutcome.fails lines :: rest) 0
        = (some FetchOutcome.raise403, 1, [FileEvent.openLog, FileEvent.removeLog])) ∧
    (classifyLine (lastNonEmptyLine lines) = ErrClass.err400 →
      s3_run (AttemptOutcome.fails lines :: rest) 0
        = (some FetchOutcome.raise400, 1, [FileEvent.openLog, FileEvent.removeLog])) ∧
    (classifyLine (lastNonEmptyLine lines) = ErrClass.missingOnS3 →
      s3_run (AttemptOutcome.fails lines :: rest) 0
        = (some FetchOutcome.raiseMissing, 1, [FileEvent.openLog, FileEvent.removeLog])) ∧
    (classifyLine (lastNonEmptyLine lines) = ErrClass.unclassified →
      get_file_from_s3_result (List.replicate 4 (AttemptOutcome.fails lines))
        = some FetchOutcome.raiseUndiagnosed ∧
      get_file_from_s3_attempts (List.replicate 4 (AttemptOutcome.fails lines)) = 4) ∧
    (classifyLine (lastNonEmptyLine lines) = ErrClass.unclassified → k ≤ 3 →
      get_file_from_s3_result
          (List.replicate k (AttemptOutcome.fails lines) ++ [AttemptOutcome.success])
        = some FetchOutcome.ok ∧
      get_file_from_s3_attempts
          (List.replicate k (AttemptOutcome.fails lines) ++ [AttemptOutcome.success])
        = k + 1) ∧
    get_file_from_s3_attempts outs ≤ 4 := by
  refine ⟨?_, ?_, ?_, ?_, ?_, ?_⟩
  · intro h; simp [s3_run, h]
  · intro h; simp [s3_run, h]
  · intro h; simp [s3_run, h]
  · intro h
    constructor <;>
      simp [get_file_from_s3_result, get_file_from_s3_attempts, List.replicate, s3_run, h]
  · intro h hk
    interval_cases k <;> constructor <;>
      simp [get_file_from_s3_result, get_file_from_s3_attempts, List.replicate, s3_run, h]
  · have := s3_attempts_bound outs 0 (by omega)
    unfold get_file_from_s3_attempts
    omega

/-- Witness for `c1_amended_retry_schedule` at concrete inputs: a 403 stderr
line raises at once; four unclassified failures exhaust the retry budget. -/
theorem c1_amended_retry_schedule_witness :
    s3_run
        (AttemptOutcome.fails
          ["boto.exception.S3ResponseError: S3ResponseError: 403 Forbidden".toList] :: []) 0
      = (some FetchOutcome.raise403, 1, [FileEvent.openLog, FileEvent.removeLog]) ∧
    get_file_from_s3_attempts
        (List.replicate 4 (AttemptOutcome.fails ["unexpected network error".toList])) = 4 := by
  constructor
  · exact (c1_amended_retry_schedule
      ["boto.exception.S3ResponseError: S3ResponseError: 403 Forbidden".toList]
      [] [] 0).1 (by decide)
  · exact ((c1_amended_retry_schedule ["unexpected network error".toList]
      [] [] 0).2.2.2.1 (by decide)).2

/-- C9: on every exit path of the object-store download loop — success, each
classified fatal raise, the undiagnosed raise after exhausting retries, the
missing-s3am raise, and the retry `continue` — the per-attempt stderr
diagnostic log is removed: the file-event trace is exactly one
`openLog, removeLog` pair per attempt performed. -/
theorem c9_stderr_log_always_removed (outs : List AttemptOutcome) (a : Nat) :
    (s3_run outs a).2.2
      = List.flatten (List.replicate (s3_run outs a).2.1 [FileEvent.openLog, FileEvent.removeLog]) := by
  induction outs generalizing a with
  | nil => simp [s3_run]
  | cons o rest ih =>
    cases o with
    | success => simp [s3_run]
    | osError => simp [s3_run]
    | fails lines =>
      cases hcl : classifyLine (lastNonEmptyLine lines) <;> simp [s3_run, hcl]
      by_cases hlt : a < 3
      · simp [hlt, List.replicate_succ, ih (a + 1)]
      · simp [hlt]

theorem cghub_calls_schedule (outs : List Bool) :
    ∀ (a : Nat) (r : Bool) (evs : List CgEvent),
      cghub_run outs a = some (r, evs) →
      cgCalls evs = (List.range (cgCalls evs).length).map (fun i => (a + i + 1) * 10) := by
  induction outs with
  | nil => intro a r evs h; simp [cghub_run] at h
  | cons ok rest ih =>
    intro a r evs h
    cases ok with
    | true =>
      simp [cghub_run] at h
      obtain ⟨rfl, rfl⟩ := h
      simp [cgCalls, show List.range 1 = [0] from rfl]
    | false =>
      by_cases h3 : a + 1 = 3
      · simp [cghub_run, h3] at h
        obtain ⟨rfl, rfl⟩ := h
        simp [cgCalls, List.filterMap, show List.range 1 = [0] from rfl]
        omega
      · simp [cghub_run, h3] at h
        cases hrec : cghub_run rest (a + 1) with
        | none => rw [hrec] at h; simp at h
        | some p =>
          obtain ⟨r', evs'⟩ := p
          rw [hrec] at h
          simp at h
          obtain ⟨rfl, rfl⟩ := h
          have ihs := ih (a + 1) r' evs' hrec
          have hc : cgCalls (CgEvent.toolCall ((a + 1) * 10) false :: CgEvent.sleep 600 ::
              CgEvent.logErr :: evs') = (a + 1) * 10 :: cgCalls evs' := by
            simp [cgCalls]
          rw [hc]
          have hlen : (((a + 1) * 10 :: cgCalls evs').length) = (cgCalls evs').length + 1 := by
            simp
          rw [hlen, List.range_succ_eq_map, List.map_cons, List.map_map]
          rw [List.cons_eq_cons]
          refine ⟨by simp, ?_⟩
          rw [ihs]
          simp only [List.length_map, List.length_range]
          apply List.map_congr_left
          intro i _
          simp [Function.comp]
          ring

theorem cghub_calls_bound (outs : List Bool) :
    ∀ (a : Nat), a < 3 → ∀ (r : Bool) (evs : List CgEvent),
      cghub_run outs a = some (r, evs) → (cgCalls evs).length + a ≤ 3 := by
  induction outs with
  | nil => intro a _ r evs h; simp [cghub_run] at h
  | cons ok rest ih =>
    intro a ha r evs h
    cases ok with
    | true =>
      simp [cghub_run] at h
      obtain ⟨rfl, rfl⟩ := h
      simp [cgCalls]; omega
    | false =>
      by_cases h3 : a + 1 = 3
      · simp [cghub_run, h3] at h
        obtain ⟨rfl, rfl⟩ := h
        simp [cgCalls, List.filterMap]; omega
      · simp [cghub_run, h3] at h
        cases hrec : cghub_run rest (a + 1) with
        | none => rw [hrec] at h; simp at h
        | some p =>
          obtain ⟨r', evs'⟩ := p
          rw [hrec] at h
          simp at h
          obtain ⟨rfl, rfl⟩ := h
          have := ih (a + 1) (by omega) r' evs' hrec
          simp [cgCalls] at this ⊢
          omega

/-- C7: on persistent failure the archive-service retrieval makes exactly 3
tool invocations with `-k` timeouts 10, 20, 30 (a fixed +10 increment per
retry), a fixed 600-second cool-down after each failure, and finally
re-raises the tool error; in general the `-k` parameter of the i-th
invocation is `(i + 1) * 10` and at most 3 invocations occur. -/
theorem c7_cghub_timeout_retry (rest outs : List Bool) (r : Bool) (evs : List CgEvent)
    (h : cghub_run outs 0 = some (r, evs)) :
    cghub_run (false :: false :: false :: rest) 0
      = some (false,
          [CgEvent.toolCall 10 false, CgEvent.sleep 600, CgEvent.logErr,
           CgEvent.toolCall 20 false, CgEvent.sleep 600, CgEvent.logErr,
           CgEvent.toolCall 30 false, CgEvent.sleep 600, CgEvent.logErr,
           CgEvent.raiseToolError]) ∧
    cgCalls evs = (List.range (cgCalls evs).length).map (fun i => (i + 1) * 10) ∧
    (cgCalls evs).length ≤ 3 := by
  refine ⟨by rfl, ?_, ?_⟩
  · have := cghub_calls_schedule outs 0 r evs h
    simpa using this
  · have := cghub_calls_bound outs 0 (by omega) r evs h
    omega

/-- Witness for `c7_cghub_timeout_retry` at concrete inputs. -/
theorem c7_cghub_timeout_retry_witness :
    cghub_run [false, false, false] 0
      = some (false,
          [CgEvent.toolCall 10 false, CgEvent.sleep 600, CgEvent.logErr,
           CgEvent.toolCall 20 false, CgEvent.sleep 600, CgEvent.logErr,
           CgEvent.toolCall 30 false, CgEvent.sleep 600, CgEvent.logErr,
           CgEvent.raiseToolError]) ∧
    (cgCalls [CgEvent.toolCall 10 true]).length ≤ 3 := by
  constructor
  · exact (c7_cghub_timeout_retry [] [true] true [CgEvent.toolCall 10 true] (by decide)).1
  · exact (c7_cghub_timeout_retry [] [true] true [CgEvent.toolCall 10 true] (by decide)).2.2

theorem sub_2to1_forall2 (l : List Char) :
    List.Forall₂ (fun a b => b = a ∨ (a = '2' ∧ b = '1')) l (sub_2to1 l) := by
  induction l using sub_2to1.induct with
  | case1 rest ih =>
    refine List.Forall₂.cons (Or.inl rfl) (List.Forall₂.cons (Or.inr ⟨rfl, rfl⟩) ?_)
    refine List.Forall₂.cons (Or.inl rfl) (List.Forall₂.cons (Or.inl rfl) ?_)
    refine List.Forall₂.cons (Or.inl rfl) (List.Forall₂.cons (Or.inl rfl) ?_)
    refine List.Forall₂.cons (Or.inl rfl) (List.Forall₂.cons (Or.inl rfl) ?_)
    exact ih
  | case2 c rest hne ih =>
    rw [sub_2to1.eq_2 c rest hne]
    refine List.Forall₂.cons (Or.inl rfl) ?_
    exact ih
  | case3 => exact List.Forall₂.nil

theorem forall2_append_split {R : Char → Char → Prop} (t s m : List Char)
    (h : List.Forall₂ R (t ++ s) m) :
    ∃ u v, m = u ++ v ∧ List.Forall₂ R t u ∧ List.Forall₂ R s v := by
  induction t generalizing m with
  | nil => exact ⟨[], m, rfl, List.Forall₂.nil, h⟩
  | cons a t ih =>
    cases h with
    | cons hr htail =>
      obtain ⟨u, v, rfl, hu, hv⟩ := ih _ htail
      exact ⟨_ :: u, v, rfl, List.Forall₂.cons hr hu, hv⟩

theorem forall2_no2_eq (s : List Char) (h2 : '2' ∉ s) :
    ∀ v, List.Forall₂ (fun a b => b = a ∨ (a = '2' ∧ b = '1')) s v → v = s := by
  induction s with
  | nil => intro v hv; cases hv; rfl
  | cons a s ih =>
    intro v hv
    cases v with
    | nil => cases hv
    | cons b v2 =>
      cases hv with
      | cons hr htail =>
        have ha : a ≠ '2' := fun hc => h2 (by simp [hc])
        have hb : b = a := by
          cases hr with
          | inl h => exact h
          | inr h => exact absurd h.1 ha
        have := ih (fun hc => h2 (by simp [hc])) v2 htail
        simp [hb, this]

/-- If `l` ends with a suffix `s` containing no character `2`, then so does
`sub_2to1 l` — the replacement only turns a `2` into a `1`. -/
theorem sub_2to1_keeps_suffix (l s : List Char) (h2 : '2' ∉ s)
    (h : ∃ t, t ++ s = l) : ∃ t, t ++ s = sub_2to1 l := by
  obtain ⟨t, rfl⟩ := h
  obtain ⟨u, v, hm, _, hv⟩ := forall2_append_split t s _ (sub_2to1_forall2 (t ++ s))
  rw [forall2_no2_eq s h2 v hv] at hm
  exact ⟨u, hm.symm⟩

theorem isSuffixOf_exists (s l : List Char) : s.isSuffixOf l = true ↔ ∃ t, t ++ s = l := by
  rw [List.isSuffixOf_iff_suffix]
  exact Iff.rfl

theorem ext_isSuffixOf (f e : List Char) (h : (splitext f).2 = e) :
    e.isSuffixOf f = true := by
  rw [isSuffixOf_exists]
  exact ⟨(splitext f).1, by rw [← h, splitext_concat]⟩

theorem bai_not_bam (f : List Char) (h : (splitext f).2 = ".bai".toList) :
    ".bam".toList.isSuffixOf f = false := by
  cases hx : ".bam".toList.isSuffixOf f with
  | false => rfl
  | true =>
    exfalso
    rw [isSuffixOf_exists] at hx
    obtain ⟨t, ht⟩ := hx
    have hf : (splitext f).1 ++ ".bai".toList = f := by rw [← h, splitext_concat]
    have heq : t ++ ".bam".toList = (splitext f).1 ++ ".bai".toList := by rw [ht, hf]
    have hrev := congrArg List.reverse heq
    rw [List.reverse_append, List.reverse_append,
      show (".bam".toList).reverse = ['m', 'a', 'b', '.'] from by decide,
      show (".bai".toList).reverse = ['i', 'a', 'b', '.'] from by decide] at hrev
    simp only [List.cons_append, List.nil_append] at hrev
    injection hrev with hhead _
    exact absurd hhead (by decide)

/-- C4: bundle-shape validation of a successfully retrieved archive-service
bundle. Exactly two files carrying the `.bam`/`.bai` extension pair — in
either listing order — convert via `bam2fastq` and return the first
paired-read path (ending `_1.fastq`); exactly one `.tar.gz` file whose
extracted member ends in `.fastq` or in `.fastq.gz` returns the
`_2.fastq -> _1.fastq` substituted path, still carrying the same read-form
suffix; every other shape — wrong extension pair, a `.tar.gz` extracting to
a non-fastq member, non-tar single file, any other file count — yields the
unexpected-archive-shape error, and that error is raised after the download
loop: a successful single download performs exactly one tool invocation
whatever the bundle contents. -/
theorem c4_bundle_shapes (wd td aid f1 f2 g m : List Char)
    (files2 : List (List Char)) (c1 mc : Content) :
    ((splitext f1).2 = ".bam".toList → (splitext f2).2 = ".bai".toList →
      cghub_shape wd td aid [f1, f2] c1
        = ShapeResult.fastqPath (bam2fastq_path (joinPath (joinPath td aid) f1)) ∧
      (∃ t, t ++ "_1.fastq".toList = bam2fastq_path (joinPath (joinPath td aid) f1))) ∧
    ((splitext f1).2 = ".bai".toList → (splitext f2).2 = ".bam".toList →
      cghub_shape wd td aid [f1, f2] c1
        = ShapeResult.fastqPath (bam2fastq_path (joinPath (joinPath td aid) f2)) ∧
      (∃ t, t ++ "_1.fastq".toList = bam2fastq_path (joinPath (joinPath td aid) f2))) ∧
    (files2.length = 2 →
      ¬(((files2.map (fun x => (splitext x).2)).contains ".bam".toList = true) ∧
        ((files2.map (fun x => (splitext x).2)).contains ".bai".toList = true)) →
      cghub_shape wd td aid files2 c1 = ShapeResult.unexpectedArchiveShape) ∧
    (".tar.gz".toList.isSuffixOf g = true → tarFirstMember c1 = some (m, mc) →
      ".fastq".toList.isSuffixOf (joinPath (joinPath wd "fastqs".toList) m) = true →
      cghub_shape wd td aid [g] c1
        = ShapeResult.fastqPath (sub_2to1 (joinPath (joinPath wd "fastqs".toList) m)) ∧
      (∃ t, t ++ ".fastq".toList = sub_2to1 (joinPath (joinPath wd "fastqs".toList) m))) ∧
    (".tar.gz".toList.isSuffixOf g = true → tarFirstMember c1 = some (m, mc) →
      ".fastq.gz".toList.isSuffixOf (joinPath (joinPath wd "fastqs".toList) m) = true →
      cghub_shape wd td aid [g] c1
        = ShapeResult.fastqPath (sub_2to1 (joinPath (joinPath wd "fastqs".toList) m)) ∧
      (∃ t, t ++ ".fastq.gz".toList = sub_2to1 (joinPath (joinPath wd "fastqs".toList) m))) ∧
    (".tar.gz".toList.isSuffixOf g = true → tarFirstMember c1 = some (m, mc) →
      ".fastq".toList.isSuffixOf (joinPath (joinPath wd "fastqs".toList) m) = false →
      ".fastq.gz".toList.isSuffixOf (joinPath (joinPath wd "fastqs".toList) m) = false →
      cghub_shape wd td aid [g] c1 = ShapeResult.unexpectedArchiveShape) ∧
    (".tar.gz".toList.isSuffixOf g = false →
      cghub_shape wd td aid [g] c1 = ShapeResult.unexpectedArchiveShape) ∧
    (files2.length ≠ 1 → files2.length ≠ 2 →
      cghub_shape wd td aid files2 c1 = ShapeResult.unexpectedArchiveShape) ∧
    (get_file_from_cghub_model [true] wd td aid files2 c1
      = some (CghubResult.shaped (cghub_shape wd td aid files2 c1),
              [CgEvent.toolCall 10 true])) := by
  refine ⟨?_, ?_, ?_, ?_, ?_, ?_, ?_, ?_, ?_⟩
  · intro h1 h2
    have hf1 : (['.', 'b', 'a', 'm'] : List Char).isSuffixOf f1 = true :=
      ext_isSuffixOf f1 _ h1
    have hf2 : (['.', 'b', 'a', 'm'] : List Char).isSuffixOf f2 = false :=
      bai_not_bam f2 h2
    constructor
    · unfold cghub_shape
      simp [h1, h2, hf1, hf2, List.filter]
    · refine ⟨(splitPath (joinPath (joinPath td aid) f1)).1
        ++ '/' :: (splitPath (splitext (joinPath (joinPath td aid) f1)).1).2, ?_⟩
      simp [bam2fastq_path]
  · intro h1 h2
    have hf1 : (['.', 'b', 'a', 'm'] : List Char).isSuffixOf f1 = false :=
      bai_not_bam f1 h1
    have hf2 : (['.', 'b', 'a', 'm'] : List Char).isSuffixOf f2 = true :=
      ext_isSuffixOf f2 _ h2
    constructor
    · unfold cghub_shape
      simp [h1, h2, hf1, hf2, List.filter]
    · refine ⟨(splitPath (joinPath (joinPath td aid) f2)).1
        ++ '/' :: (splitPath (splitext (joinPath (joinPath td aid) f2)).1).2, ?_⟩
      simp [bam2fastq_path]
  · intro hlen hnp
    have hb : ((files2.map (fun x => (splitext x).2)).contains ".bam".toList &&
        (files2.map (fun x => (splitext x).2)).contains ".bai".toList) = false := by
      cases hA : (files2.map (fun x => (splitext x).2)).contains ".bam".toList with
      | false => rfl
      | true =>
        cases hB : (files2.map (fun x => (splitext x).2)).contains ".bai".toList with
        | false => rfl
        | true => exact absurd ⟨hA, hB⟩ hnp
    unfold cghub_shape
    simp only [hlen, hb]
    rfl
  · intro hg hm hfq
    have hgL : (['.', 't', 'a', 'r', '.', 'g', 'z'] : List Char).isSuffixOf g = true := hg
    have hfqP : (['.', 'f', 'a', 's', 't', 'q'] : List Char)
        <:+ joinPath (joinPath wd ['f', 'a', 's', 't', 'q', 's']) m :=
      (List.isSuffixOf_iff_suffix).mp hfq
    constructor
    · unfold cghub_shape
      simp [hgL, hm, hfqP]
    · exact sub_2to1_keeps_suffix _ _ (by decide) ((isSuffixOf_exists _ _).mp hfq)
  · intro hg hm hfq
    have hgL : (['.', 't', 'a', 'r', '.', 'g', 'z'] : List Char).isSuffixOf g = true := hg
    have hfqP : (['.', 'f', 'a', 's', 't', 'q', '.', 'g', 'z'] : List Char)
        <:+ joinPath (joinPath wd ['f', 'a', 's', 't', 'q', 's']) m :=
      (List.isSuffixOf_iff_suffix).mp hfq
    constructor
    · unfold cghub_shape
      simp [hgL, hm, hfqP]
    · exact sub_2to1_keeps_suffix _ _ (by decide) ((isSuffixOf_exists _ _).mp hfq)
  · intro hg hm hf hfgz
    have hgL : (['.', 't', 'a', 'r', '.', 'g', 'z'] : List Char).isSuffixOf g = true := hg
    have hfL : (['.', 'f', 'a', 's', 't', 'q'] : List Char).isSuffixOf
        (joinPath (joinPath wd ['f', 'a', 's', 't', 'q', 's']) m) = false := hf
    have hfgzL : (['.', 'f', 'a', 's', 't', 'q', '.', 'g', 'z'] : List Char).isSuffixOf
        (joinPath (joinPath wd ['f', 'a', 's', 't', 'q', 's']) m) = false := hfgz
    have hfP : ¬ ((['.', 'f', 'a', 's', 't', 'q'] : List Char)
        <:+ joinPath (joinPath wd ['f', 'a', 's', 't', 'q', 's']) m) := by
      intro hs
      have hb := (List.isSuffixOf_iff_suffix).mpr hs
      rw [hfL] at hb
      exact Bool.noConfusion hb
    have hfgzP : ¬ ((['.', 'f', 'a', 's', 't', 'q', '.', 'g', 'z'] : List Char)
        <:+ joinPath (joinPath wd ['f', 'a', 's', 't', 'q', 's']) m) := by
      intro hs
      have hb := (List.isSuffixOf_iff_suffix).mpr hs
      rw [hfgzL] at hb
      exact Bool.noConfusion hb
    unfold cghub_shape
    simp [hgL, hm, hfP, hfgzP]
  · intro hg
    have hgL : (['.', 't', 'a', 'r', '.', 'g', 'z'] : List Char).isSuffixOf g = false := hg
    unfold cghub_shape
    simp [hgL]
  · intro hn1 hn2
    unfold cghub_shape
    simp [hn1, hn2]
  · rfl

/-- Witness for `c4_bundle_shapes` at concrete inputs: aligned bundles
listed as `x.bam`/`y.bai` and as `y.bai`/`x.bam`, and unaligned `z.tar.gz`
bundles extracting to `r_2.fastq`, to `r_2.fastq.gz`, and to the
non-fastq `readme.txt`. -/
theorem c4_bundle_shapes_witness :
    cghub_shape "/w".toList "/t".toList "A".toList
        ["x.bam".toList, "y.bai".toList] (Content.plain [])
      = ShapeResult.fastqPath
          (bam2fastq_path (joinPath (joinPath "/t".toList "A".toList) "x.bam".toList)) ∧
    cghub_shape "/w".toList "/t".toList "A".toList
        ["y.bai".toList, "x.bam".toList] (Content.plain [])
      = ShapeResult.fastqPath
          (bam2fastq_path (joinPath (joinPath "/t".toList "A".toList) "x.bam".toList)) ∧
    cghub_shape "/w".toList "/t".toList "A".toList ["z.tar.gz".toList]
        (Content.tar "r_2.fastq".toList (Content.plain []))
      = ShapeResult.fastqPath
          (sub_2to1 (joinPath (joinPath "/w".toList "fastqs".toList) "r_2.fastq".toList)) ∧
    cghub_shape "/w".toList "/t".toList "A".toList ["z.tar.gz".toList]
        (Content.tar "r_2.fastq.gz".toList (Content.plain []))
      = ShapeResult.fastqPath
          (sub_2to1 (joinPath (joinPath "/w".toList "fastqs".toList) "r_2.fastq.gz".toList)) ∧
    cghub_shape "/w".toList "/t".toList "A".toList ["z.tar.gz".toList]
        (Content.tar "readme.txt".toList (Content.plain []))
      = ShapeResult.unexpectedArchiveShape := by
  refine ⟨?_, ?_, ?_, ?_, ?_⟩
  · exact ((c4_bundle_shapes "/w".toList "/t".toList "A".toList "x.bam".toList
      "y.bai".toList [] [] [] (Content.plain []) (Content.plain [])).1
        (by decide) (by decide)).1
  · exact ((c4_bundle_shapes "/w".toList "/t".toList "A".toList "y.bai".toList
      "x.bam".toList [] [] [] (Content.plain []) (Content.plain [])).2.1
        (by decide) (by decide)).1
  · exact ((c4_bundle_shapes "/w".toList "/t".toList "A".toList [] []
      "z.tar.gz".toList "r_2.fastq".toList []
      (Content.tar "r_2.fastq".toList (Content.plain []))
      (Content.plain [])).2.2.2.1
        (by decide) (by decide) (by decide)).1
  · exact ((c4_bundle_shapes "/w".toList "/t".toList "A".toList [] []
      "z.tar.gz".toList "r_2.fastq.gz".toList []
      (Content.tar "r_2.fastq.gz".toList (Content.plain []))
      (Content.plain [])).2.2.2.2.1
        (by decide) (by decide) (by decide)).1
  · exact (c4_bundle_shapes "/w".toList "/t".toList "A".toList [] []
      "z.tar.gz".toList "readme.txt".toList []
      (Content.tar "readme.txt".toList (Content.plain []))
      (Content.plain [])).2.2.2.2.2.1
        (by decide) (by decide) (by decide) (by decide)

/-- C3: the alignment job is a child of the root in every mode; mode `both`
instantiates exactly the two branch chains, each hanging off the shared
`bwa` predecessor; modes `adam` and `gatk` instantiate exactly one branch;
the two branches write their haplotype-caller inputs under distinct
`.adam` / `.gatk` key suffixes, so their config lines always differ. -/
theorem c3_static_dag_branches (r b u : List Char) :
    (∀ mode : List Char,
      (JobId.sampleLoopRoot, JobId.bwa) ∈ (static_dag r b u mode).edges) ∧
    (static_dag r b u "both".toList).edges
      = [(JobId.sampleLoopRoot, JobId.bwa),
         (JobId.bwa, JobId.adam_preprocess), (JobId.adam_preprocess, JobId.gatk_adam_call),
         (JobId.bwa, JobId.gatk_preprocess), (JobId.gatk_preprocess, JobId.gatk_gatk_call)] ∧
    (static_dag r b u "adam".toList).edges
      = [(JobId.sampleLoopRoot, JobId.bwa),
         (JobId.bwa, JobId.adam_preprocess), (JobId.adam_preprocess, JobId.gatk_adam_call)] ∧
    (static_dag r b u "gatk".toList).edges
      = [(JobId.sampleLoopRoot, JobId.bwa),
         (JobId.bwa, JobId.gatk_preprocess), (JobId.gatk_preprocess, JobId.gatk_gatk_call)] ∧
    (∃ t, t ++ ".adam.bam".toList = (static_dag r b u "both".toList).gatk_adam_call_config) ∧
    (∃ t, t ++ ".gatk.bam".toList = (static_dag r b u "both".toList).gatk_gatk_call_config) ∧
    (static_dag r b u "both".toList).gatk_adam_call_config
      ≠ (static_dag r b u "both".toList).gatk_gatk_call_config ∧
    gatk_adam_call_inputs_suffix ≠ gatk_gatk_call_inputs_suffix := by
  refine ⟨?_, rfl, rfl, rfl, ⟨gatk_call_config_stem r b u, rfl⟩,
    ⟨gatk_call_config_stem r b u, rfl⟩, ?_, by decide⟩
  · intro mode
    simp [static_dag]
  · intro h
    have h2 : (".adam.bam".toList : List Char) = ".gatk.bam".toList :=
      (List.append_right_inj (gatk_call_config_stem r b u)).mp h
    exact absurd h2 (by decide)

/-- C2 evaluation: running the manifest loop on `["S1", "S2"]` (distinct
heap addresses 0..4, empty initial dicts) creates two children holding the
same five references, and the bwa bundle that the already-created `S1` child
resolves after the loop carries `uuid = "S2"` — sample 2's mutation changed
the configuration seen by sample 1's graph, against the claimed value-copy
independence. -/
theorem c2_shared_config_mutation :
    (sample_loop "bkt".toList ⟨0, 1, 2, 3, 4⟩ ["S1".toList, "S2".toList] ⟨fun _ => []⟩).2
      = [⟨"S1".toList, ⟨0, 1, 2, 3, 4⟩⟩, ⟨"S2".toList, ⟨0, 1, 2, 3, 4⟩⟩] ∧
    dictGet
        (childSees
          (sample_loop "bkt".toList ⟨0, 1, 2, 3, 4⟩ ["S1".toList, "S2".toList] ⟨fun _ => []⟩).1
          ⟨"S1".toList, ⟨0, 1, 2, 3, 4⟩⟩ Addrs.bwa)
        "uuid".toList
      = some "S2".toList ∧
    ¬ dictGet
        (childSees
          (sample_loop "bkt".toList ⟨0, 1, 2, 3, 4⟩ ["S1".toList, "S2".toList] ⟨fun _ => []⟩).1
          ⟨"S1".toList, ⟨0, 1, 2, 3, 4⟩⟩ Addrs.bwa)
        "uuid".toList
      = some "S1".toList := by
  refine ⟨by decide, by decide, by decide⟩
